import Mathlib

/-!
Verification of the NextGenFwys metrics pipeline
(`utilities/NextGenFwys/metrics/ngfs_metrics.py` and
`utilities/NextGenFwys/metrics/Round 2 Metrics/Safe2_change_in_vmt.py`).

The Python scripts are embedded shallowly: pandas DataFrames become Lean
lists of records, pandas column arithmetic becomes exact rational
arithmetic over an IEEE-754-style value domain (rationals extended with
infinities and NaN, matching numpy float64 behaviour on the operations
the scripts perform), merges/sorts/groupbys become the corresponding
executable list transformations, and code that can raise a Python
exception is modelled with `Option`/`Except`.
-/

/-- Value domain for pandas float64 cells: an exact rational, one of the
two IEEE infinities, or NaN.  The scripts only ever produce infinities
and NaN through subtraction and division, modelled below. -/
inductive RVal where
  | fin : ℚ → RVal
  | inf : RVal
  | neginf : RVal
  | nan : RVal
deriving DecidableEq, Repr

/-- numpy float64 subtraction on `RVal` (exact on finite operands). -/
def rsub : RVal → RVal → RVal
  | RVal.nan, _ => RVal.nan
  | _, RVal.nan => RVal.nan
  | RVal.fin a, RVal.fin b => RVal.fin (a - b)
  | RVal.fin _, RVal.inf => RVal.neginf
  | RVal.fin _, RVal.neginf => RVal.inf
  | RVal.inf, RVal.fin _ => RVal.inf
  | RVal.neginf, RVal.fin _ => RVal.neginf
  | RVal.inf, RVal.inf => RVal.nan
  | RVal.inf, RVal.neginf => RVal.inf
  | RVal.neginf, RVal.inf => RVal.neginf
  | RVal.neginf, RVal.neginf => RVal.nan

/-- numpy float64 division on `RVal`: division of a finite value by zero
yields a signed infinity (or NaN for 0/0), exactly as numpy float64
division does; no exception is raised. -/
def rdiv : RVal → RVal → RVal
  | RVal.nan, _ => RVal.nan
  | _, RVal.nan => RVal.nan
  | RVal.fin a, RVal.fin b =>
      if b = 0 then
        (if 0 < a then RVal.inf else if a < 0 then RVal.neginf else RVal.nan)
      else RVal.fin (a / b)
  | RVal.fin _, RVal.inf => RVal.fin 0
  | RVal.fin _, RVal.neginf => RVal.fin 0
  | RVal.inf, RVal.fin b => if b < 0 then RVal.neginf else RVal.inf
  | RVal.neginf, RVal.fin b => if b < 0 then RVal.inf else RVal.neginf
  | RVal.inf, RVal.inf => RVal.nan
  | RVal.inf, RVal.neginf => RVal.nan
  | RVal.neginf, RVal.inf => RVal.nan
  | RVal.neginf, RVal.neginf => RVal.nan

/-- One entry of `metrics_dict` in `ngfs_metrics.py`, after the dict is
turned into a DataFrame with columns
`['grouping1','grouping2','grouping3','modelrun_id','metric_id',
'intermediate/final','key','metric_desc','year','value']`
(`calculate_change_between_run_and_base`, lines 487-489). -/
structure MetricRec where
  grouping1 : String
  grouping2 : String
  grouping3 : String
  modelrun_id : String
  metric_id : String
  intermediate_final : String
  key0 : String
  metric_desc : String
  year : String
  value : RVal
deriving DecidableEq, Repr

/-- The row selection
`metrics_dict_df.loc[modelrun_id == run_id].loc[metric_desc == metric].iloc[0]['value']`
(ngfs_metrics.py lines 503-504): first row matching both filters, `none`
when no row matches (pandas raises `IndexError` on `.iloc[0]` there). -/
def lookupVal (rows : List MetricRec) (run_id metric : String) : Option RVal :=
  (rows.find? (fun r => r.modelrun_id = run_id ∧ r.metric_desc = metric)).map
    (fun r => r.value)

/-- The body of the per-metric loop of `calculate_change_between_run_and_base`
(ngfs_metrics.py lines 503-506) for one metric description: look up the
current-run value and the base-run value, and emit the pair
`(val_run - val_base, (val_run - val_base) / val_base)`.  A failed lookup
(pandas `IndexError` from `.iloc[0]` on an empty selection) is `none`. -/
def computeChange (rows : List MetricRec) (tm_run_id base_run_id metric : String) :
    Option (RVal × RVal) :=
  match lookupVal rows tm_run_id metric, lookupVal rows base_run_id metric with
  | some val_run, some val_base =>
      some (rsub val_run val_base, rdiv (rsub val_run val_base) val_base)
  | _, _ => none

/-- Concrete metrics table for the delta scenario: current run value 120,
base run value 100 for the same metric description. -/
def c3rows : List MetricRec :=
  [⟨" ", " ", " ", "2035_RUN", "Reliable 1", "extra", "Change", "travel_time", "2035", RVal.fin 120⟩,
   ⟨" ", " ", " ", "2035_BASE", "Reliable 1", "extra", "Change", "travel_time", "2035", RVal.fin 100⟩]

/-- Concrete metrics table with a base-run value of zero and a positive
current-run value. -/
def c4rows : List MetricRec :=
  [⟨" ", " ", " ", "2035_RUN", "Reliable 1", "extra", "Change", "travel_time", "2035", RVal.fin 120⟩,
   ⟨" ", " ", " ", "2035_BASE", "Reliable 1", "extra", "Change", "travel_time", "2035", RVal.fin 0⟩]

/-- Concrete metrics table with a base-run value of zero and a negative
current-run value. -/
def c4rowsNeg : List MetricRec :=
  [⟨" ", " ", " ", "2035_RUN", "Reliable 1", "extra", "Change", "travel_time", "2035", RVal.fin (-5)⟩,
   ⟨" ", " ", " ", "2035_BASE", "Reliable 1", "extra", "Change", "travel_time", "2035", RVal.fin 0⟩]

/-- Concrete metrics table whose metric exists only for the current run,
not for the base run. -/
def c5rows : List MetricRec :=
  [⟨" ", " ", " ", "2035_RUN", "Reliable 1", "extra", "Change", "travel_time", "2035", RVal.fin 7⟩]

/-- C3: for every metric present in both the current run and the base run
(with finite values), the run-vs-base comparison emits an absolute delta
equal to current minus base, and — when the base value is nonzero — a
percentage delta equal to that difference divided by the base value. -/
theorem delta_correctness (rows : List MetricRec) (run_id base_id metric : String)
    (qr qb : ℚ)
    (hrun : lookupVal rows run_id metric = some (RVal.fin qr))
    (hbase : lookupVal rows base_id metric = some (RVal.fin qb))
    (hqb : qb ≠ 0) :
    computeChange rows run_id base_id metric =
      some (RVal.fin (qr - qb), RVal.fin ((qr - qb) / qb)) := by
  unfold computeChange
  rw [hrun, hbase]
  simp [rsub, rdiv, hqb]

/-- Witness for C3: with current value 120 and base value 100 the code
returns absolute delta 20 and percentage delta 0.20. -/
theorem delta_correctness_witness :
    computeChange c3rows "2035_RUN" "2035_BASE" "travel_time" =
      some (RVal.fin 20, RVal.fin (1/5)) := by
  have h := delta_correctness c3rows "2035_RUN" "2035_BASE" "travel_time" 120 100
    (by simp [lookupVal, c3rows, List.find?]) (by simp [lookupVal, c3rows, List.find?])
    (by norm_num)
  rw [h]
  norm_num

/-- Counterexample to C4: with base value 0 and current value 120 the code
emits IEEE positive infinity as the percentage delta, not a flagged
null/undefined value. -/
theorem delta_base_zero_counterexample :
    computeChange c4rows "2035_RUN" "2035_BASE" "travel_time" =
      some (RVal.fin 120, RVal.inf) := by
  simp [computeChange, lookupVal, c4rows, List.find?, rsub, rdiv]

/-- C4 (amended): when the base value is zero and the current value is
finite, the percentage delta is emitted as IEEE infinity with the sign of
the difference (NaN when the difference is also zero); no runtime crash
occurs — a value is always produced. -/
theorem delta_base_zero (rows : List MetricRec) (run_id base_id metric : String)
    (qr : ℚ)
    (hrun : lookupVal rows run_id metric = some (RVal.fin qr))
    (hbase : lookupVal rows base_id metric = some (RVal.fin 0)) :
    computeChange rows run_id base_id metric =
      some (RVal.fin qr,
        if 0 < qr then RVal.inf else if qr < 0 then RVal.neginf else RVal.nan) := by
  unfold computeChange
  rw [hrun, hbase]
  simp [rsub, rdiv]

/-- Witness for the amended C4: with base value 0 and current value -5 the
percentage delta is IEEE negative infinity. -/
theorem delta_base_zero_witness :
    computeChange c4rowsNeg "2035_RUN" "2035_BASE" "travel_time" =
      some (RVal.fin (-5), RVal.neginf) := by
  have h := delta_base_zero c4rowsNeg "2035_RUN" "2035_BASE" "travel_time" (-5)
    (by simp [lookupVal, c4rowsNeg, List.find?]) (by simp [lookupVal, c4rowsNeg, List.find?])
  rw [h]
  norm_num

/-- C5: a metric key present in the current run but absent from the base
run makes the delta computation fail (the modelled `IndexError` from
`.iloc[0]`, i.e. `none`); it never silently produces a value. -/
theorem delta_unmatched_fails (rows : List MetricRec) (run_id base_id metric : String)
    (v : RVal)
    (hrun : lookupVal rows run_id metric = some v)
    (hbase : lookupVal rows base_id metric = none) :
    computeChange rows run_id base_id metric = none := by
  unfold computeChange
  rw [hrun, hbase]

/-- Witness for C5: a concrete table where the metric exists only in the
current run; the delta computation returns `none`. -/
theorem delta_unmatched_fails_witness :
    computeChange c5rows "2035_RUN" "2035_BASE" "travel_time" = none := by
  exact delta_unmatched_fails c5rows "2035_RUN" "2035_BASE" "travel_time" (RVal.fin 7)
    (by simp [lookupVal, c5rows, List.find?])
    (by simp [lookupVal, c5rows, List.find?])

/-- One iteration body of the run loop of `ngfs_metrics.py` `__main__`
(lines 2548-2585): the per-metric calculation functions are called one
after another with no try/except around any of them; each call either
returns a DataFrame (concatenated into `metrics_df`) or raises, and a
raised exception propagates out of the loop body uncaught.  The sequence
of fallible metric-stage results is the parameter. -/
def processRun {ε α : Type} : List (Except ε α) → Except ε (List α)
  | [] => Except.ok []
  | Except.error e :: _ => Except.error e
  | Except.ok a :: rest =>
      match processRun rest with
      | Except.error e => Except.error e
      | Except.ok others => Except.ok (a :: others)

/-- The run loop of `ngfs_metrics.py` `__main__` (lines 2471-2586): runs
are processed sequentially, and an exception escaping one run's metric
calculations propagates out of the `for` loop, aborting the remaining
runs as well (there is no try/except in the loop). -/
def runBatch {ε α : Type} : List (List (Except ε α)) → Except ε (List (List α))
  | [] => Except.ok []
  | run :: rest =>
      match processRun run with
      | Except.error e => Except.error e
      | Except.ok dfs =>
          match runBatch rest with
          | Except.error e => Except.error e
          | Except.ok others => Except.ok (dfs :: others)

/-- Counterexample to C1: a batch of two runs where the second of three
metric stages of the first run fails.  The orchestrator aborts with that
failure: the third metric and the entire second run are never reflected
in any output, contradicting the claim that the pipeline logs the
failure and continues with the remaining metrics and runs. -/
theorem orchestrator_aborts_counterexample :
    processRun [Except.ok 1, Except.error "stage failure", Except.ok 2] =
      Except.error "stage failure" ∧
    runBatch [[Except.ok 1, Except.error "stage failure", Except.ok 2],
              [Except.ok 3]] = Except.error "stage failure" := by
  constructor <;> rfl

/-- C1 (amended): if any metric computation of any run fails, the first
such failure propagates uncaught: the orchestrator result is that error,
regardless of how many metrics preceded it, how many follow it, and how
many runs remain in the batch. -/
theorem orchestrator_aborts {ε α : Type} (pre : List α) (e : ε)
    (post : List (Except ε α)) (rest : List (List (Except ε α))) :
    runBatch ((pre.map Except.ok ++ Except.error e :: post) :: rest) =
      Except.error e := by
  have h : processRun (pre.map Except.ok ++ Except.error e :: post) =
      (Except.error e : Except ε (List α)) := by
    induction pre with
    | nil => rfl
    | cons a l ih => simp [processRun, ih]
  simp [runBatch, h]

/-- The per-run output path `os.path.join(os.getcwd(), "ngfs_metrics_{}.csv".format(tm_run_id))`
(ngfs_metrics.py line 2472). -/
def outFilename (cwd tm_run_id : String) : String :=
  cwd ++ "/" ++ "ngfs_metrics_" ++ tm_run_id ++ ".csv"

/-- The run loop of `ngfs_metrics.py` `__main__` (lines 2471-2476, 2585)
viewed through its file writes: for each run id, if `--skip_if_exists`
was passed and the run's output file already exists the iteration is
skipped (`continue`) before any metric is computed; otherwise the metrics
are computed and written to the output file.  `fileTaken` is the
pre-existing-file predicate of the filesystem and `compute` the metric
computation. -/
def batchOutputs {α : Type} (skip_if_exists : Bool) (fileTaken : String → Bool)
    (compute : String → α) (cwd : String) (runs : List String) :
    List (String × α) :=
  runs.filterMap (fun tm_run_id =>
    if skip_if_exists && fileTaken (outFilename cwd tm_run_id) then none
    else some (outFilename cwd tm_run_id, compute tm_run_id))

/-- C9: when the skip-if-exists flag is set and a run's output file
already exists, nothing is ever written to that file (the run is skipped
entirely); when the flag is unset or the file does not exist, the run is
processed and its computed metrics are written to its output file. -/
theorem skip_if_exists_correct {α : Type} (skip_if_exists : Bool)
    (fileTaken : String → Bool) (compute : String → α) (cwd : String)
    (runs : List String) (r : String) (hr : r ∈ runs) :
    (skip_if_exists = true ∧ fileTaken (outFilename cwd r) = true →
      ∀ x : α, (outFilename cwd r, x) ∉
        batchOutputs skip_if_exists fileTaken compute cwd runs) ∧
    (¬(skip_if_exists = true ∧ fileTaken (outFilename cwd r) = true) →
      (outFilename cwd r, compute r) ∈
        batchOutputs skip_if_exists fileTaken compute cwd runs) := by
  constructor
  · rintro ⟨hskip, htaken⟩ x hx
    rcases List.mem_filterMap.mp hx with ⟨r', hmem, hr'⟩
    subst hskip
    by_cases hc : fileTaken (outFilename cwd r') = true
    · rw [if_pos (by simp [hc])] at hr'
      exact Option.noConfusion hr'
    · rw [if_neg (by simp [hc])] at hr'
      injection hr' with h1
      have hf : outFilename cwd r' = outFilename cwd r := congrArg Prod.fst h1
      rw [hf] at hc
      exact hc htaken
  · intro hniff
    refine List.mem_filterMap.mpr ⟨r, hr, ?_⟩
    rw [if_neg]
    intro hb
    rw [Bool.and_eq_true] at hb
    exact hniff ⟨hb.1, hb.2⟩

/-- Witness for C9: two runs, a flag that is set, and a filesystem where
only the first run's output file exists: the first run's file is never
written, the second run is processed and written. -/
theorem skip_if_exists_correct_witness :
    (∀ x : ℕ, (outFilename "C:" "2035_A", x) ∉
      batchOutputs true (fun s => s == outFilename "C:" "2035_A")
        (fun _ => 7) "C:" ["2035_A", "2035_B"]) ∧
    (outFilename "C:" "2035_B", 7) ∈
      batchOutputs true (fun s => s == outFilename "C:" "2035_A")
        (fun _ => 7) "C:" ["2035_A", "2035_B"] := by
  constructor
  · exact (skip_if_exists_correct true (fun s => s == outFilename "C:" "2035_A")
      (fun _ => 7) "C:" ["2035_A", "2035_B"] "2035_A" (by simp)).1
      ⟨rfl, by simp⟩
  · exact (skip_if_exists_correct true (fun s => s == outFilename "C:" "2035_A")
      (fun _ => 7) "C:" ["2035_A", "2035_B"] "2035_B" (by simp)).2
      (by simp [outFilename])

/-- One row of `network_links_TAZ.csv` restricted to the columns the
script keeps: `[['A', 'B', 'TAZ1454', 'linktaz_share']]`
(Safe2_change_in_vmt.py line 104). -/
structure LinkTazRow where
  A : ℤ
  B : ℤ
  TAZ1454 : ℤ
  linktaz_share : ℚ
deriving DecidableEq, Repr

/-- One row of the EPC crosswalk `taz_epc_crosswalk.csv`
(`NGFS_EPC_TAZ_DF`, Safe2_change_in_vmt.py line 41). -/
structure EpcRow where
  TAZ1454 : ℤ
  taz_epc : ℤ
deriving DecidableEq, Repr

/-- One row of the link-to-TAZ lookup after the left merge with the EPC
crosswalk on `TAZ1454` (Safe2_change_in_vmt.py lines 107-112):
`taz_epc` is `none` where the crosswalk had no matching TAZ. -/
structure EpcJoinedRow where
  A : ℤ
  B : ℤ
  TAZ1454 : ℤ
  linktaz_share : ℚ
  taz_epc : Option ℤ
deriving DecidableEq, Repr

/-- `pd.merge(left=tm_network_links_taz_df, right=NGFS_EPC_TAZ_DF,
left_on="TAZ1454", right_on="TAZ1454", how='left')`
(Safe2_change_in_vmt.py lines 107-112): every left row is matched with
every crosswalk row of the same TAZ, or kept once with a null `taz_epc`
when there is no match. -/
def leftJoinEpc (links : List LinkTazRow) (epc : List EpcRow) :
    List EpcJoinedRow :=
  links.flatMap (fun l =>
    match epc.filter (fun e => e.TAZ1454 = l.TAZ1454) with
    | [] => [⟨l.A, l.B, l.TAZ1454, l.linktaz_share, none⟩]
    | ms => ms.map (fun e => ⟨l.A, l.B, l.TAZ1454, l.linktaz_share, some e.taz_epc⟩))

/-- Insertion of one element into a list sorted by `le` (used to model
`DataFrame.sort_values`, as a deterministic comparison sort). -/
def insertBy {α : Type} (le : α → α → Bool) (a : α) : List α → List α
  | [] => [a]
  | b :: l => if le a b then a :: b :: l else b :: insertBy le a l

/-- Comparison sort by `le`, modelling `DataFrame.sort_values` /
`sort_index`. -/
def sortBy {α : Type} (le : α → α → Bool) (l : List α) : List α :=
  l.foldr (insertBy le) []

/-- `DataFrame.drop_duplicates(keys)` with the default `keep='first'`:
keep each row whose key has not been seen earlier in the list.  `seen`
accumulates the keys already kept. -/
def dropDuplicatesAux {α κ : Type} [DecidableEq κ] (k : α → κ) (seen : List κ) :
    List α → List α
  | [] => []
  | a :: l =>
      if k a ∈ seen then dropDuplicatesAux k seen l
      else a :: dropDuplicatesAux k (k a :: seen) l

/-- `DataFrame.drop_duplicates(keys)` (keep the first row per key). -/
def dropDuplicates {α κ : Type} [DecidableEq κ] (k : α → κ) (l : List α) : List α :=
  dropDuplicatesAux k [] l

/-- The tie break of Safe2_change_in_vmt.py line 113:
`df.sort_values('linktaz_share', ascending=False).drop_duplicates(['A', 'B']).sort_index()`
— sort the lookup by descending share, keep the first (largest-share) row
per `(A, B)` key, then restore the original row order.  Row positions
stand in for the pandas index. -/
def tieBreakLookup (l : List EpcJoinedRow) : List EpcJoinedRow :=
  let indexed := l.enum
  let sorted := sortBy
    (fun x y : ℕ × EpcJoinedRow => y.2.linktaz_share ≤ x.2.linktaz_share) indexed
  let deduped := dropDuplicates (fun x : ℕ × EpcJoinedRow => (x.2.A, x.2.B)) sorted
  (sortBy (fun x y : ℕ × EpcJoinedRow => x.1 ≤ y.1) deduped).map (fun x => x.2)

/-- One row of `avgload5period.csv` after
`rename(columns=lambda x: x.strip())`, restricted to the columns
Safe2_change_in_vmt.py uses (lines 92-96, 119-187).  `tollclass` is
optional because a missing (NaN) toll class compares as false in
`loaded_network_df.tollclass > 700000`. -/
structure RawNetRow where
  a : ℤ
  b : ℤ
  ft : ℤ
  distance : ℚ
  volEA_tot : ℚ
  volAM_tot : ℚ
  volMD_tot : ℚ
  volPM_tot : ℚ
  volEV_tot : ℚ
  ctimEA : ℚ
  ctimAM : ℚ
  ctimMD : ℚ
  ctimPM : ℚ
  ctimEV : ℚ
  tollclass : Option ℤ
deriving DecidableEq, Repr

/-- One row of the loaded network after the left merge with the
deduplicated link-to-TAZ lookup on `(a, b) = (A, B)`
(Safe2_change_in_vmt.py line 116): the lookup columns are null where no
lookup row matched the link. -/
structure NetRow where
  raw : RawNetRow
  TAZ1454 : Option ℤ
  linktaz_share : Option ℚ
  taz_epc : Option ℤ
deriving DecidableEq, Repr

/-- The rows the left merge of Safe2_change_in_vmt.py line 116 produces
for one network row: one row per matching lookup row, or a single row
with null lookup columns when nothing matches. -/
def mergeLinkTazRow (lk : List EpcJoinedRow) (r : RawNetRow) : List NetRow :=
  match lk.filter (fun e => e.A = r.a ∧ e.B = r.b) with
  | [] => [⟨r, none, none, none⟩]
  | ms => ms.map (fun e => ⟨r, some e.TAZ1454, some e.linktaz_share, e.taz_epc⟩)

/-- `pd.merge(left=loaded_network_df, right=tm_network_links_with_epc_df,
left_on=['a','b'], right_on=['A','B'], how='left')`
(Safe2_change_in_vmt.py line 116). -/
def mergeLinkTaz (net : List RawNetRow) (lk : List EpcJoinedRow) : List NetRow :=
  net.flatMap (mergeLinkTazRow lk)

/-- Inserting into a list yields a permutation of consing. -/
theorem insertBy_perm {α : Type} (le : α → α → Bool) (a : α) (l : List α) :
    (insertBy le a l).Perm (a :: l) := by
  induction l with
  | nil => exact List.Perm.refl _
  | cons b l ih =>
      by_cases h : le a b = true
      · simp [insertBy, h]
      · simp only [insertBy, h, if_neg, Bool.not_eq_true]
        exact ((ih.cons b).trans (List.Perm.swap a b l))

/-- The comparison sort is a permutation of its input. -/
theorem sortBy_perm {α : Type} (le : α → α → Bool) (l : List α) :
    (sortBy le l).Perm l := by
  induction l with
  | nil => exact List.Perm.refl _
  | cons a l ih =>
      exact (insertBy_perm le a (sortBy le l)).trans (ih.cons a)

/-- Rows whose key was already seen are entirely dropped by
`drop_duplicates`. -/
theorem dropDuplicatesAux_countP_zero {α κ : Type} [DecidableEq κ] (k : α → κ)
    (key : κ) (l : List α) :
    ∀ seen : List κ, key ∈ seen →
      (dropDuplicatesAux k seen l).countP (fun a => k a = key) = 0 := by
  induction l with
  | nil => intro seen _; rfl
  | cons a l ih =>
      intro seen hseen
      by_cases h : k a ∈ seen
      · simp only [dropDuplicatesAux, if_pos h]
        exact ih seen hseen
      · simp only [dropDuplicatesAux, if_neg h]
        rw [List.countP_cons]
        have hne : ¬(k a = key) := fun hk => h (hk ▸ hseen)
        rw [ih (k a :: seen) (List.mem_cons_of_mem _ hseen)]
        simp [hne]

/-- After `drop_duplicates` each key occurs at most once. -/
theorem dropDuplicatesAux_countP_le {α κ : Type} [DecidableEq κ] (k : α → κ)
    (key : κ) (l : List α) :
    ∀ seen : List κ,
      (dropDuplicatesAux k seen l).countP (fun a => k a = key) ≤ 1 := by
  induction l with
  | nil => intro seen; simp [dropDuplicatesAux]
  | cons a l ih =>
      intro seen
      by_cases h : k a ∈ seen
      · simp only [dropDuplicatesAux, if_pos h]
        exact ih seen
      · simp only [dropDuplicatesAux, if_neg h]
        rw [List.countP_cons]
        by_cases hk : k a = key
        · rw [dropDuplicatesAux_countP_zero k key l (k a :: seen)
            (hk ▸ List.mem_cons_self (k a) seen)]
          simp [hk]
        · have hd : (decide (k a = key)) = false := by simp [hk]
          rw [hd]
          simpa using ih (k a :: seen)

/-- The tie-broken lookup table has at most one row per `(A, B)` key. -/
theorem tieBreakLookup_key_unique (l : List EpcJoinedRow) (x y : ℤ) :
    (tieBreakLookup l).countP (fun e => e.A = x ∧ e.B = y) ≤ 1 := by
  unfold tieBreakLookup
  rw [List.countP_map]
  rw [(sortBy_perm (fun a b : ℕ × EpcJoinedRow => a.1 ≤ b.1) _).countP_eq]
  have h := dropDuplicatesAux_countP_le
    (fun a : ℕ × EpcJoinedRow => (a.2.A, a.2.B)) (x, y)
    (sortBy (fun a b : ℕ × EpcJoinedRow => b.2.linktaz_share ≤ a.2.linktaz_share)
      l.enum) []
  rw [List.countP_congr]
  · exact h
  · intro a _
    simp [Prod.ext_iff, Function.comp]

/-- When the lookup table has at most one row per `(A, B)` key, the left
merge on `(a, b)` keeps each network row exactly once: projecting the
merged rows back to their network part gives back the network table. -/
theorem mergeLinkTaz_map_raw (net : List RawNetRow) (lk : List EpcJoinedRow)
    (h : ∀ x y : ℤ, lk.countP (fun e => e.A = x ∧ e.B = y) ≤ 1) :
    (mergeLinkTaz net lk).map NetRow.raw = net := by
  induction net with
  | nil => rfl
  | cons r net ih =>
      unfold mergeLinkTaz
      rw [List.flatMap_cons, List.map_append]
      have hblock : (mergeLinkTazRow lk r).map NetRow.raw = [r] := by
        unfold mergeLinkTazRow
        cases hfl : lk.filter (fun e => e.A = r.a ∧ e.B = r.b) with
        | nil => rfl
        | cons e es =>
            have hlen : (e :: es).length ≤ 1 := by
              rw [← hfl, ← List.countP_eq_length_filter]
              exact h r.a r.b
            have hes : es = [] := by
              cases es with
              | nil => rfl
              | cons f fs => simp at hlen
            subst hes
            rfl
      rw [hblock]
      have ih2 := ih
      unfold mergeLinkTaz at ih2
      rw [ih2]
      rfl

/-- C2: joining the loaded network (primary) with the link-to-TAZ/EPC
lookup under the largest-share-wins tie break (sort by `linktaz_share`
descending, deduplicate by `(A, B)`, restore index order) produces
exactly one row derived from each primary row — the left join never
drops a primary row and never duplicates one, whatever the lookup
contents. -/
theorem safe2_join_preserves_primary (net : List RawNetRow)
    (links : List LinkTazRow) (epc : List EpcRow) :
    (mergeLinkTaz net (tieBreakLookup (leftJoinEpc links epc))).map NetRow.raw
      = net := by
  exact mergeLinkTaz_map_raw net _
    (fun x y => tieBreakLookup_key_unique (leftJoinEpc links epc) x y)

/-- The facility-type grouping table `ft_to_grouping_key_df`
(Safe2_change_in_vmt.py lines 150-161): `ft`, `Freeway/Non-Freeway`,
`Facility Type Definition`; special facility (9) and toll plaza (10)
carry nulls. -/
def ft_to_grouping_key_df : List (ℤ × Option String × Option String) :=
  [(1, some "Freeway", some "Freeway"),
   (2, some "Freeway", some "Freeway"),
   (3, some "Non-Freeway", some "Expressway"),
   (4, some "Non-Freeway", some "Collector"),
   (5, some "Freeway", some "Freeway"),
   (6, some "Non-Freeway", some "Other"),
   (7, some "Non-Freeway", some "Arterial"),
   (8, some "Freeway", some "Freeway"),
   (9, none, none),
   (10, none, none)]

/-- The `Freeway/Non-Freeway` column added by the left merge with
`ft_to_grouping_key_df` on `ft` (Safe2_change_in_vmt.py line 167);
`none` both for the null entries of the table (ft 9, 10) and for `ft`
values the table does not list (unmatched left-merge rows).  The table
has one row per `ft`, so the first match is the only match. -/
def fwyNonFwy (r : NetRow) : Option String :=
  match ft_to_grouping_key_df.find? (fun t => t.1 = r.raw.ft) with
  | none => none
  | some t => t.2.1

/-- The `Facility Type Definition` column added by the same merge. -/
def facilityTypeDef (r : NetRow) : Option String :=
  match ft_to_grouping_key_df.find? (fun t => t.1 = r.raw.ft) with
  | none => none
  | some t => t.2.2

/-- The `EPC/Non-EPC` recode (Safe2_change_in_vmt.py lines 170-171):
default `'Non-EPCs'`, overwritten with `'EPCs'` where `taz_epc == 1`
(a null `taz_epc` never equals 1). -/
def epcCategory (r : NetRow) : String :=
  if r.taz_epc = some 1 then "EPCs" else "Non-EPCs"

/-- The `Tolled/Non-tolled Facilities` recode (Safe2_change_in_vmt.py
lines 174-175): default `'Non-tolled facilities'`, overwritten with
`'Tolled facilities'` where `tollclass > 700000` (a null tollclass
compares false). -/
def tolledCategory (r : NetRow) : String :=
  match r.raw.tollclass with
  | none => "Non-tolled facilities"
  | some t => if 700000 < t then "Tolled facilities" else "Non-tolled facilities"

/-- The county range rules of Safe2_change_in_vmt.py lines 180-187, in
source order: `(lower exclusive, upper exclusive, county)`. -/
def countyRanges : List (ℤ × ℤ × String) :=
  [(190, 347, "San Mateo"),
   (346, 715, "Santa Clara"),
   (714, 1040, "Alameda"),
   (1039, 1211, "Contra Costa"),
   (1210, 1291, "Solano"),
   (1290, 1318, "Napa"),
   (1317, 1404, "Sonoma"),
   (1403, 1455, "Marin")]

/-- The `County` recode (Safe2_change_in_vmt.py lines 179-187): start
from the default `'San Francisco'` and apply the eight range overwrites
in source order (a null `TAZ1454` satisfies no range and keeps the
default). -/
def county (r : NetRow) : String :=
  countyRanges.foldl
    (fun c t =>
      match r.TAZ1454 with
      | none => c
      | some taz => if t.1 < taz ∧ taz < t.2.1 then t.2.2 else c)
    "San Francisco"

/-- `loaded_network_df['Total VMT']` (Safe2_change_in_vmt.py lines
120-125): the five period volumes summed, times link distance. -/
def total_vmt (r : NetRow) : ℚ :=
  (r.raw.volEA_tot + r.raw.volAM_tot + r.raw.volMD_tot + r.raw.volPM_tot +
    r.raw.volEV_tot) * r.raw.distance

/-- `loaded_network_df['EA VMT']` (lines 127-128). -/
def ea_vmt (r : NetRow) : ℚ := r.raw.volEA_tot * r.raw.distance

/-- `loaded_network_df['AM VMT']` (lines 130-131). -/
def am_vmt (r : NetRow) : ℚ := r.raw.volAM_tot * r.raw.distance

/-- `loaded_network_df['MD VMT']` (lines 133-134). -/
def md_vmt (r : NetRow) : ℚ := r.raw.volMD_tot * r.raw.distance

/-- `loaded_network_df['PM VMT']` (lines 136-137). -/
def pm_vmt (r : NetRow) : ℚ := r.raw.volPM_tot * r.raw.distance

/-- `loaded_network_df['EV VMT']` (lines 139-140). -/
def ev_vmt (r : NetRow) : ℚ := r.raw.volEV_tot * r.raw.distance

/-- `loaded_network_df['VHT']` (lines 142-147): congested time times
volume summed over the five periods, divided by 60. -/
def vht (r : NetRow) : ℚ :=
  (r.raw.ctimEA * r.raw.volEA_tot + r.raw.ctimAM * r.raw.volAM_tot +
   r.raw.ctimMD * r.raw.volMD_tot + r.raw.ctimPM * r.raw.volPM_tot +
   r.raw.ctimEV * r.raw.volEV_tot) / 60

/-- The five-column group key of the `groupby` at Safe2_change_in_vmt.py
lines 189-195.  pandas `groupby` silently drops rows in which any group
key is null (`dropna=True` default); the key is therefore `none` when
`Freeway/Non-Freeway` or `Facility Type Definition` is null (the other
three recodes always produce strings). -/
def groupKey (r : NetRow) : Option (String × String × String × String × String) :=
  match fwyNonFwy r, facilityTypeDef r with
  | some f, some d => some (f, d, epcCategory r, tolledCategory r, county r)
  | _, _ => none

/-- The distinct realized group keys, in order of first appearance. -/
def groupKeys : List NetRow → List (String × String × String × String × String)
  | [] => []
  | r :: rs =>
      match groupKey r with
      | none => groupKeys rs
      | some k => k :: (groupKeys rs).filter (fun k2 => k2 ≠ k)

/-- The aggregated columns of the `groupby(...).agg(...)` at
Safe2_change_in_vmt.py lines 189-195. -/
structure AggVals where
  total_vmt : ℚ
  vht : ℚ
  ea_vmt : ℚ
  am_vmt : ℚ
  md_vmt : ℚ
  pm_vmt : ℚ
  ev_vmt : ℚ
deriving DecidableEq, Repr

/-- Column sums over a list of network rows (the `'sum'` reductions of
the `agg` dict). -/
def aggOf (rows : List NetRow) : AggVals :=
  ⟨(rows.map total_vmt).sum, (rows.map vht).sum, (rows.map ea_vmt).sum,
   (rows.map am_vmt).sum, (rows.map md_vmt).sum, (rows.map pm_vmt).sum,
   (rows.map ev_vmt).sum⟩

/-- `ft_metrics_df`: the `groupby(by=['Freeway/Non-Freeway','Facility Type
Definition','EPC/Non-EPC','Tolled/Non-tolled Facilities','County'])
.agg({...'sum'...}).reset_index()` of Safe2_change_in_vmt.py lines
189-195: one output row per realized (non-null) key tuple, carrying the
column sums of the input rows with that key. -/
def ft_metrics_df (rows : List NetRow) :
    List ((String × String × String × String × String) × AggVals) :=
  (groupKeys rows).map
    (fun k => (k, aggOf (rows.filter (fun r => groupKey r = some k))))

/-- C10: each categorical recode of the Safe 2 VMT calculation falls back
to its fixed default when the lookup match is missing: no EPC-crosswalk
match (or a flag other than 1) gives `'Non-EPCs'`; a missing tollclass or
one not above 700000 gives `'Non-tolled facilities'`; and a missing TAZ
number, or one inside none of the listed county ranges above 190, gives
County `'San Francisco'`. -/
theorem safe2_recode_defaults (r : NetRow) :
    ((r.taz_epc = none ∨ r.taz_epc ≠ some 1) → epcCategory r = "Non-EPCs") ∧
    ((r.raw.tollclass = none ∨ ∀ t, r.raw.tollclass = some t → t ≤ 700000) →
      tolledCategory r = "Non-tolled facilities") ∧
    ((r.TAZ1454 = none ∨ ∀ t, r.TAZ1454 = some t →
        ∀ rng ∈ countyRanges, ¬(rng.1 < t ∧ t < rng.2.1)) →
      county r = "San Francisco") := by
  refine ⟨?_, ?_, ?_⟩
  · intro h
    have hne : r.taz_epc ≠ some 1 := by
      rcases h with h | h
      · rw [h]; simp
      · exact h
    simp [epcCategory, hne]
  · intro h
    cases hc : r.raw.tollclass with
    | none => simp [tolledCategory, hc]
    | some t =>
        rcases h with h | h
        · rw [h] at hc; exact Option.noConfusion hc
        · have ht := h t hc
          simp [tolledCategory, hc]
          omega
  · intro h
    cases hc : r.TAZ1454 with
    | none => simp [county, countyRanges, hc]
    | some t =>
        rcases h with h | h
        · rw [h] at hc; exact Option.noConfusion hc
        · have h1 := h t hc (190, 347, "San Mateo") (by simp [countyRanges])
          have h2 := h t hc (346, 715, "Santa Clara") (by simp [countyRanges])
          have h3 := h t hc (714, 1040, "Alameda") (by simp [countyRanges])
          have h4 := h t hc (1039, 1211, "Contra Costa") (by simp [countyRanges])
          have h5 := h t hc (1210, 1291, "Solano") (by simp [countyRanges])
          have h6 := h t hc (1290, 1318, "Napa") (by simp [countyRanges])
          have h7 := h t hc (1317, 1404, "Sonoma") (by simp [countyRanges])
          have h8 := h t hc (1403, 1455, "Marin") (by simp [countyRanges])
          simp only [county, countyRanges, List.foldl_cons, List.foldl_nil, hc]
          simp only [h1, h2, h3, h4, h5, h6, h7, h8, if_false]

/-- A concrete network row with no EPC match, tollclass 0, and TAZ 100
(below all listed county ranges). -/
def c10row : NetRow :=
  ⟨⟨1, 2, 7, 1, 0, 0, 0, 0, 0, 0, 0, 0, 0, 0, some 0⟩, some 100, some 1, none⟩

/-- Witness for C10: the concrete row gets all three defaults. -/
theorem safe2_recode_defaults_witness :
    epcCategory c10row = "Non-EPCs" ∧
    tolledCategory c10row = "Non-tolled facilities" ∧
    county c10row = "San Francisco" := by
  obtain ⟨h1, h2, h3⟩ := safe2_recode_defaults c10row
  refine ⟨h1 (Or.inl rfl), h2 (Or.inr ?_), h3 (Or.inr ?_)⟩
  · intro t ht
    have : t = 0 := by
      have := Option.some.inj ht
      omega
    omega
  · intro t ht rng hrng
    have htv : t = 100 := by
      have := Option.some.inj ht
      omega
    subst htv
    fin_cases hrng <;> norm_num

/-- Sum of a pointwise addition of two list maps splits into two sums. -/
theorem sum_map_add {α : Type} (f g : α → ℚ) (l : List α) :
    (l.map (fun a => f a + g a)).sum = (l.map f).sum + (l.map g).sum := by
  induction l with
  | nil => simp
  | cons a l ih => simp [ih]; ring

/-- The distinct key list contains no duplicates. -/
theorem groupKeys_nodup (rows : List NetRow) : (groupKeys rows).Nodup := by
  induction rows with
  | nil => exact List.nodup_nil
  | cons r rs ih =>
      unfold groupKeys
      cases hk : groupKey r with
      | none => exact ih
      | some k =>
          refine List.Nodup.cons ?_ (ih.filter _)
          intro hmem
          have := List.of_mem_filter hmem
          simp at this

/-- Every realized group key of a row list appears in its key list. -/
theorem groupKeys_cover (rows : List NetRow) (r : NetRow) (k : String × String × String × String × String)
    (hr : r ∈ rows) (hk : groupKey r = some k) : k ∈ groupKeys rows := by
  induction rows with
  | nil => exact absurd hr (List.not_mem_nil r)
  | cons r0 rs ih =>
      unfold groupKeys
      cases hk0 : groupKey r0 with
      | none =>
          rcases List.mem_cons.mp hr with h | h
          · subst h; rw [hk0] at hk; exact Option.noConfusion hk
          · exact ih h
      | some k0 =>
          by_cases hkk : k = k0
          · subst hkk; exact List.mem_cons_self _ _
          · rcases List.mem_cons.mp hr with h | h
            · subst h; rw [hk0] at hk
              exact absurd (Option.some.inj hk).symm hkk
            · exact List.mem_cons_of_mem _
                (List.mem_filter.mpr ⟨ih h, by simp [hkk]⟩)

/-- Summing a per-key indicator over a duplicate-free key list that
covers the row's key gives the row's value when the key is non-null and
zero otherwise. -/
theorem indicator_sum (v : NetRow → ℚ) (r : NetRow)
    (ks : List (String × String × String × String × String))
    (hnd : ks.Nodup) (hcov : ∀ k, groupKey r = some k → k ∈ ks) :
    (ks.map (fun k => if groupKey r = some k then v r else 0)).sum =
      if (groupKey r).isSome then v r else 0 := by
  induction ks with
  | nil =>
      cases hgk : groupKey r with
      | none => simp [hgk]
      | some k => exact absurd (hcov k hgk) (List.not_mem_nil k)
  | cons k0 ks ih =>
      rw [List.map_cons, List.sum_cons]
      by_cases h0 : groupKey r = some k0
      · rw [if_pos h0]
        have hz : (ks.map (fun k => if groupKey r = some k then v r else 0)).sum = 0 := by
          have : ∀ k ∈ ks, (if groupKey r = some k then v r else 0) = 0 := by
            intro k hkmem
            rw [if_neg]
            intro hrk
            rw [h0] at hrk
            have : k0 = k := Option.some.inj hrk
            subst this
            exact (List.nodup_cons.mp hnd).1 hkmem
          calc (ks.map (fun k => if groupKey r = some k then v r else 0)).sum
              = (ks.map (fun _ => (0 : ℚ))).sum := by
                apply congrArg
                exact List.map_congr_left this
            _ = 0 := by simp
        rw [hz, h0]
        simp
      · rw [if_neg h0]
        rw [ih (List.nodup_cons.mp hnd).2]
        · simp
        · intro k hrk
          have := hcov k hrk
          rcases List.mem_cons.mp this with h | h
          · subst h; exact absurd hrk h0
          · exact h

/-- Generic conservation for the Safe 2 groupby: summing a column's
per-group sums over a duplicate-free covering key list equals the
column's sum over the rows whose group key is non-null. -/
theorem sum_over_groups (v : NetRow → ℚ) (rows : List NetRow)
    (ks : List (String × String × String × String × String))
    (hnd : ks.Nodup)
    (hcov : ∀ r ∈ rows, ∀ k, groupKey r = some k → k ∈ ks) :
    (ks.map (fun k => ((rows.filter (fun r => groupKey r = some k)).map v).sum)).sum
      = ((rows.filter (fun r => (groupKey r).isSome)).map v).sum := by
  induction rows with
  | nil => simp
  | cons r rs ih =>
      have hsplit : ∀ k : String × String × String × String × String,
          (((r :: rs).filter (fun x => groupKey x = some k)).map v).sum =
            (if groupKey r = some k then v r else 0) +
              ((rs.filter (fun x => groupKey x = some k)).map v).sum := by
        intro k
        by_cases h : groupKey r = some k
        · rw [List.filter_cons_of_pos (by simp [h]), if_pos h]
          simp
        · rw [List.filter_cons_of_neg (by simp [h]), if_neg h]
          simp
      calc (ks.map (fun k => (((r :: rs).filter (fun x => groupKey x = some k)).map v).sum)).sum
          = (ks.map (fun k => (if groupKey r = some k then v r else 0) +
              ((rs.filter (fun x => groupKey x = some k)).map v).sum)).sum := by
            apply congrArg
            exact List.map_congr_left (fun k _ => hsplit k)
        _ = (ks.map (fun k => if groupKey r = some k then v r else 0)).sum +
              (ks.map (fun k => ((rs.filter (fun x => groupKey x = some k)).map v).sum)).sum :=
            sum_map_add _ _ ks
        _ = (if (groupKey r).isSome then v r else 0) +
              ((rs.filter (fun x => (groupKey x).isSome)).map v).sum := by
            rw [indicator_sum v r ks hnd
              (fun k hk => hcov r (List.mem_cons_self r rs) k hk),
              ih (fun x hx k hk => hcov x (List.mem_cons_of_mem r hx) k hk)]
        _ = (((r :: rs).filter (fun x => (groupKey x).isSome)).map v).sum := by
            by_cases h : (groupKey r).isSome
            · rw [List.filter_cons_of_pos (by simp [h]), if_pos h]
              simp
            · rw [List.filter_cons_of_neg (by simp [h]), if_neg h]
              simp

/-- C7 (amended): the Safe 2 sum aggregation is conserved group by group
— every emitted group's value is the sum of the value column over
exactly the input rows whose keys match that group — and its total over
all groups equals the value column summed over the rows whose group keys
are all non-null.  (Rows with a null key, e.g. facility types 9 and 10,
are silently dropped by the pandas groupby, so the total over groups can
fall short of the whole ungrouped input.) -/
theorem safe2_aggregation_conservation (rows : List NetRow) :
    (∀ k v, (k, v) ∈ ft_metrics_df rows →
      v.total_vmt = ((rows.filter (fun r => groupKey r = some k)).map total_vmt).sum) ∧
    ((ft_metrics_df rows).map (fun p => p.2.total_vmt)).sum =
      ((rows.filter (fun r => (groupKey r).isSome)).map total_vmt).sum := by
  constructor
  · intro k v hmem
    unfold ft_metrics_df at hmem
    rcases List.mem_map.mp hmem with ⟨k0, _, hk0⟩
    have hkk : k0 = k := congrArg Prod.fst hk0
    subst hkk
    have hv : aggOf (rows.filter (fun r => groupKey r = some k0)) = v :=
      congrArg Prod.snd hk0
    rw [← hv]
    rfl
  · unfold ft_metrics_df
    rw [List.map_map]
    have heq : ((fun p : (String × String × String × String × String) × AggVals =>
        p.2.total_vmt) ∘ (fun k => (k, aggOf (rows.filter (fun r => groupKey r = some k)))))
        = fun k => ((rows.filter (fun r => groupKey r = some k)).map total_vmt).sum := by
      funext k
      rfl
    rw [heq]
    exact sum_over_groups total_vmt rows (groupKeys rows) (groupKeys_nodup rows)
      (fun r hr k hk => groupKeys_cover rows r k hr hk)

/-- A one-link network table whose facility type is 9 (special facility,
null grouping keys), with nonzero volume. -/
def c7rows : List NetRow :=
  mergeLinkTaz [⟨1, 2, 9, 2, 100, 0, 0, 0, 0, 0, 0, 0, 0, 0, some 0⟩]
    (tieBreakLookup (leftJoinEpc [] []))

/-- Counterexample to C7 as stated: for the `ft = 9` network table the
sum of the aggregated `Total VMT` over all groups is 0 (the row is
dropped because its group keys are null), while the ungrouped total is
200 — aggregation does not conserve the total over the whole input. -/
theorem safe2_aggregation_counterexample :
    ((ft_metrics_df c7rows).map (fun p => p.2.total_vmt)).sum ≠
      (c7rows.map total_vmt).sum := by
  have h1 : c7rows = [⟨⟨1, 2, 9, 2, 100, 0, 0, 0, 0, 0, 0, 0, 0, 0, some 0⟩, none, none, none⟩] := by
    simp [c7rows, mergeLinkTaz, mergeLinkTazRow, tieBreakLookup, leftJoinEpc,
      sortBy, dropDuplicates, dropDuplicatesAux, List.enum]
  rw [h1]
  simp [ft_metrics_df, groupKeys, groupKey, fwyNonFwy, facilityTypeDef,
    ft_to_grouping_key_df, List.find?, total_vmt]

/-- A one-link freeway network table (`ft = 1`, volume 100, distance 2)
with no TAZ lookup rows. -/
def c7rows2 : List NetRow :=
  mergeLinkTaz [⟨1, 2, 1, 2, 100, 0, 0, 0, 0, 0, 0, 0, 0, 0, some 0⟩]
    (tieBreakLookup (leftJoinEpc [] []))

/-- The single realized group key of `c7rows2`. -/
def c7key : String × String × String × String × String :=
  ("Freeway", "Freeway", "Non-EPCs", "Non-tolled facilities", "San Francisco")

/-- Witness for the amended C7: on the one-link freeway table, the
emitted Freeway group value 200 equals the sum over the rows with that
key, as given by the per-group conjunct of the conservation theorem. -/
theorem safe2_aggregation_conservation_witness :
    (⟨200, 0, 200, 0, 0, 0, 0⟩ : AggVals).total_vmt =
      ((c7rows2.filter (fun r => groupKey r = some c7key)).map total_vmt).sum := by
  have hrows : c7rows2 =
      [⟨⟨1, 2, 1, 2, 100, 0, 0, 0, 0, 0, 0, 0, 0, 0, some 0⟩, none, none, none⟩] := by
    simp [c7rows2, mergeLinkTaz, mergeLinkTazRow, tieBreakLookup, leftJoinEpc,
      sortBy, dropDuplicates, dropDuplicatesAux, List.enum]
  have hmem : (c7key, (⟨200, 0, 200, 0, 0, 0, 0⟩ : AggVals)) ∈ ft_metrics_df c7rows2 := by
    rw [hrows]
    simp [ft_metrics_df, groupKeys, groupKey, fwyNonFwy, facilityTypeDef,
      ft_to_grouping_key_df, List.find?, epcCategory, tolledCategory, county,
      countyRanges, aggOf, total_vmt, vht, ea_vmt, am_vmt, md_vmt, pm_vmt,
      ev_vmt, c7key]
    norm_num
  exact (safe2_aggregation_conservation c7rows2).1 c7key _ hmem

/-- The two-link scenario network: one `ft = 1` link with total volume
100 and distance 2, one `ft = 7` link with total volume 50 and distance
1 (no TAZ lookup rows). -/
def c6rows : List NetRow :=
  mergeLinkTaz
    [⟨1, 2, 1, 2, 100, 0, 0, 0, 0, 0, 0, 0, 0, 0, some 0⟩,
     ⟨3, 4, 7, 1, 50, 0, 0, 0, 0, 0, 0, 0, 0, 0, some 0⟩]
    (tieBreakLookup (leftJoinEpc [] []))

/-- C6: on the two-link scenario table, `VMT = volume * distance` summed
by the `Freeway/Non-Freeway` facility grouping yields Freeway = 200 and
Non-Freeway = 50. -/
theorem safe2_vmt_scenario :
    (((ft_metrics_df c6rows).filter (fun p => p.1.1 = "Freeway")).map
        (fun p => p.2.total_vmt)).sum = 200 ∧
    (((ft_metrics_df c6rows).filter (fun p => p.1.1 = "Non-Freeway")).map
        (fun p => p.2.total_vmt)).sum = 50 := by
  have hrows : c6rows =
      [⟨⟨1, 2, 1, 2, 100, 0, 0, 0, 0, 0, 0, 0, 0, 0, some 0⟩, none, none, none⟩,
       ⟨⟨3, 4, 7, 1, 50, 0, 0, 0, 0, 0, 0, 0, 0, 0, some 0⟩, none, none, none⟩] := by
    simp [c6rows, mergeLinkTaz, mergeLinkTazRow, tieBreakLookup, leftJoinEpc,
      sortBy, dropDuplicates, dropDuplicatesAux, List.enum]
  rw [hrows]
  constructor <;>
    (first
      | (simp [ft_metrics_df, groupKeys, groupKey, fwyNonFwy, facilityTypeDef,
          ft_to_grouping_key_df, List.find?, epcCategory, tolledCategory, county,
          countyRanges, aggOf, total_vmt, vht, ea_vmt, am_vmt, md_vmt, pm_vmt,
          ev_vmt]
         norm_num)
      | (simp [ft_metrics_df, groupKeys, groupKey, fwyNonFwy, facilityTypeDef,
          ft_to_grouping_key_df, List.find?, epcCategory, tolledCategory, county,
          countyRanges, aggOf, total_vmt, vht, ea_vmt, am_vmt, md_vmt, pm_vmt,
          ev_vmt]))

/-- One row of `pd.concat([auto_times_df, ft_metrics_df])`
(Safe2_change_in_vmt.py line 199): the union of the two column sets,
with nulls where a frame lacks a column.  The first seven columns are the
`id_vars` of the melt on line 200; the last eight are the value columns,
in pandas concat column order. -/
structure ConcatRow where
  fwy_non_fwy : Option String
  facility_type_def : Option String
  epc_category : Option String
  tolled_category : Option String
  county_name : Option String
  household : Option String
  income_travel_mode : Option String
  vmt : Option ℚ
  vht : Option ℚ
  total_vmt : Option ℚ
  ea_vmt : Option ℚ
  am_vmt : Option ℚ
  md_vmt : Option ℚ
  pm_vmt : Option ℚ
  ev_vmt : Option ℚ
deriving DecidableEq, Repr

/-- One row of the long-form result of
`metrics_df.melt(id_vars=[...], var_name='Metric Description')`
(Safe2_change_in_vmt.py line 200). -/
structure MeltedRow where
  fwy_non_fwy : Option String
  facility_type_def : Option String
  epc_category : Option String
  tolled_category : Option String
  county_name : Option String
  household : Option String
  income_travel_mode : Option String
  metric_description : String
  value : Option ℚ
deriving DecidableEq, Repr

/-- The melted value columns (every column of the concat frame not in
`id_vars`), in frame column order, paired with their cell accessors. -/
def meltCols : List (String × (ConcatRow → Option ℚ)) :=
  [("VMT", fun r => r.vmt),
   ("VHT", fun r => r.vht),
   ("Total VMT", fun r => r.total_vmt),
   ("EA VMT", fun r => r.ea_vmt),
   ("AM VMT", fun r => r.am_vmt),
   ("MD VMT", fun r => r.md_vmt),
   ("PM VMT", fun r => r.pm_vmt),
   ("EV VMT", fun r => r.ev_vmt)]

/-- The long-form record the melt emits for one value column and one
input row: the row's id columns, the column name as
`Metric Description`, and the row's cell in that column as `value`. -/
def meltEntry (cf : String × (ConcatRow → Option ℚ)) (r : ConcatRow) : MeltedRow :=
  ⟨r.fwy_non_fwy, r.facility_type_def, r.epc_category, r.tolled_category,
   r.county_name, r.household, r.income_travel_mode, cf.1, cf.2 r⟩

/-- `DataFrame.melt(id_vars=[...], var_name='Metric Description')`
(Safe2_change_in_vmt.py line 200): for each non-id column in frame
order, one output row per input row. -/
def melt (rows : List ConcatRow) : List MeltedRow :=
  meltCols.flatMap (fun cf => rows.map (meltEntry cf))

/-- Filtering a single melted column block by a column name keeps the
whole block when the names agree and nothing otherwise. -/
theorem filter_meltEntry (c : String) (cf : String × (ConcatRow → Option ℚ))
    (rows : List ConcatRow) :
    (rows.map (meltEntry cf)).filter (fun e => e.metric_description = c) =
      if cf.1 = c then rows.map (meltEntry cf) else [] := by
  induction rows with
  | nil => simp
  | cons r rs ih =>
      rw [List.map_cons]
      by_cases h : cf.1 = c
      · rw [List.filter_cons_of_pos (by simp [meltEntry, h]), ih, if_pos h, if_pos h]
      · rw [List.filter_cons_of_neg (by simp [meltEntry, h]), ih, if_neg h, if_neg h]

/-- C8: in the melt to the long-form schema, every non-id column appears
exactly once as a `Metric Description` for each input row, paired with
that row's cell in that column — the entries with a given column name
are exactly one per input row, in input order — and the output has
exactly (number of value columns) x (number of rows) entries, so no
non-id column is dropped or emitted twice. -/
theorem melt_completeness (rows : List ConcatRow) (c : String)
    (f : ConcatRow → Option ℚ) (hmem : (c, f) ∈ meltCols) :
    (melt rows).filter (fun e => e.metric_description = c) =
      rows.map (meltEntry (c, f)) ∧
    (melt rows).length = meltCols.length * rows.length := by
  constructor
  · unfold melt
    simp only [meltCols, List.flatMap_cons, List.flatMap_nil, List.append_nil,
      List.filter_append]
    rw [filter_meltEntry, filter_meltEntry, filter_meltEntry, filter_meltEntry,
      filter_meltEntry, filter_meltEntry, filter_meltEntry, filter_meltEntry]
    simp only [meltCols, List.mem_cons, List.not_mem_nil, or_false,
      Prod.mk.injEq] at hmem
    rcases hmem with ⟨hc, hf⟩ | ⟨hc, hf⟩ | ⟨hc, hf⟩ | ⟨hc, hf⟩ | ⟨hc, hf⟩ |
      ⟨hc, hf⟩ | ⟨hc, hf⟩ | ⟨hc, hf⟩ <;> subst hc <;> subst hf <;>
      simp
  · unfold melt
    simp only [meltCols, List.flatMap_cons, List.flatMap_nil, List.append_nil,
      List.length_append, List.length_map, List.length_cons, List.length_nil]
    ring

/-- A concrete one-row concat frame (an `auto_times_df` style row). -/
def c8rows : List ConcatRow :=
  [⟨none, none, none, none, none, some "Household", some "inc1",
    some 12, some 3, none, none, none, none, none, none⟩]

/-- Witness for C8: for the concrete one-row frame and the `VMT` column,
the melted entries with description `VMT` are exactly the one entry
carrying that row's `VMT` cell, and the output length is 8. -/
theorem melt_completeness_witness :
    (melt c8rows).filter (fun e => e.metric_description = "VMT") =
      c8rows.map (meltEntry ("VMT", fun r => r.vmt)) ∧
    (melt c8rows).length = meltCols.length * c8rows.length := by
  exact melt_completeness c8rows "VMT" (fun r => r.vmt)
    (List.mem_cons_self _ _)
